import Mathlib

/-!
Shallow embedding of `delfin/drivers/fake_storage/__init__.py` (the fake
storage driver) and proofs about it.

Modelling conventions:
* Python floats are modelled as exact rationals (`ℚ`); every float value
  occurring here is small, and the claims are stated at real-number level.
* Random draws (`random.randint`, `random.uniform`) are passed to each
  function as explicit arguments; theorems carry the bounds the library
  guarantees for those draws as hypotheses.
* Python exceptions are modelled with `Except`.
-/

namespace FakeStorage

/-- Exception kinds raised by the driver code: `delfin.exception.InvalidInput`
and the built-in `ValueError` raised by a failing `int(...)` call. -/
inductive DriverError where
  | invalidInput : DriverError
  | valueError : DriverError
deriving Repr, DecidableEq

/-- Auxiliary loop for `splitChar`: walks the character list accumulating the
current chunk (in reverse). -/
def splitCharAux (sep : Char) : List Char → List Char → List (List Char)
  | [], acc => [acc.reverse]
  | c :: cs, acc =>
      if c = sep then acc.reverse :: splitCharAux sep cs []
      else splitCharAux sep cs (c :: acc)

/-- Models Python `str.split(sep)` for a one-character separator: splits on
every occurrence; the empty string yields `[""]`. -/
def splitChar (sep : Char) (s : String) : List String :=
  (splitCharAux sep s.data []).map String.mk

/-- Value of an all-digit character list read as a decimal numeral. -/
def digitsToNat (l : List Char) : Nat :=
  l.foldl (fun n c => 10 * n + (c.toNat - '0'.toNat)) 0

/-- Models Python `int(s)` restricted to unsigned decimal digit strings (the
only numeric form that can appear in a half of a range string, since `'-'` is
the separator): an all-digit nonempty string parses, anything else raises. -/
def pyInt (s : String) : Option Int :=
  if s.data ≠ [] ∧ s.data.all Char.isDigit then
    some (Int.ofNat (digitsToNat s.data))
  else none

/-- Models Python `float(s)` restricted to unsigned decimal literals of the
forms `digits` and `digits.digits` (the forms the latency range configuration
exercises), read as an exact rational. -/
def pyFloat (s : String) : Option ℚ :=
  match splitCharAux '.' s.data [] with
  | [ip] =>
      if ip ≠ [] ∧ ip.all Char.isDigit then some (digitsToNat ip : ℚ) else none
  | [ip, fp] =>
      if ip ≠ [] ∧ ip.all Char.isDigit ∧ fp ≠ [] ∧ fp.all Char.isDigit then
        some ((digitsToNat ip : ℚ) + (digitsToNat fp : ℚ) / (10 ^ fp.length : ℚ))
      else none
  | _ => none

/-- `get_range_val(range_str, t)`: split on `'-'`, demand exactly two parts,
parse both with `t`; any failure (wrong part count or a parser exception) is
reraised as `InvalidInput`. -/
def get_range_val {α : Type} (t : String → Option α) (range_str : String) :
    Except DriverError (α × α) :=
  let rng := splitChar '-' range_str
  if rng.length ≠ 2 then .error .invalidInput
  else
    match t (rng.getD 0 ""), t (rng.getD 1 "") with
    | some min_val, some max_val => .ok (min_val, max_val)
    | _, _ => .error .invalidInput

/-- `_get_random_capacity`: given the two draws `total = randint(1000, 2000)`
and `pct = randint(0, 100)`, returns `(total, used, free)` with
`used = int(pct * total / 100)` and `free = total - used`.  The Python float
division is exact enough here that truncation coincides with `Nat` floor
division: `pct * total ≤ 200000` is exactly representable and the quotient
never rounds across an integer. -/
def get_random_capacity (total pct : Nat) : Nat × Nat × Nat :=
  let used := pct * total / 100
  let free := total - used
  (total, used, free)

/-! Module-level constants (the defaults assigned at import time). -/

def MIN_WAIT_initial : ℚ := 1/10
def MAX_WAIT_initial : ℚ := 1/2
def MIN_POOL_initial : Int := 1
def MAX_POOL_initial : Int := 100
def MIN_VOLUME_initial : Int := 1
def MAX_VOLUME_initial : Int := 2000
def PAGE_LIMIT_initial : Int := 500
def MIN_STORAGE : Nat := 1
def MAX_STORAGE : Nat := 10
def MIN_PERF_VALUES : Nat := 1
def MAX_PERF_VALUES : Nat := 4

/-- The module-global numeric ranges that `FakeStorageDriver.__init__`
reassigns from configuration. -/
structure Globals where
  MIN_WAIT : ℚ
  MAX_WAIT : ℚ
  MIN_POOL : Int
  MAX_POOL : Int
  MIN_VOLUME : Int
  MAX_VOLUME : Int
  PAGE_LIMIT : Int
deriving Repr, DecidableEq

/-- The four `fake_driver` configuration options (string-valued). -/
structure Config where
  fake_pool_range : String
  fake_volume_range : String
  fake_api_time_range : String
  fake_page_query_limit : String
deriving Repr, DecidableEq

/-- `FakeStorageDriver.__init__`: parses the four configuration options and
reassigns the module globals; a malformed range raises `InvalidInput`, a
malformed page limit raises `ValueError` from `int(...)`. -/
def driver_init (conf : Config) : Except DriverError Globals := do
  let w ← get_range_val pyFloat conf.fake_api_time_range
  let p ← get_range_val pyInt conf.fake_pool_range
  let v ← get_range_val pyInt conf.fake_volume_range
  match pyInt conf.fake_page_query_limit with
  | some pl =>
      return { MIN_WAIT := w.1, MAX_WAIT := w.2, MIN_POOL := p.1, MAX_POOL := p.2,
               MIN_VOLUME := v.1, MAX_VOLUME := v.2, PAGE_LIMIT := pl }
  | none => .error .valueError

/-- The sleep duration computed by `wait_random(low, high)`'s inner `_wait`
for the draw `rd = random.randint(0, 100)`. -/
def wait_random_delay (low high : ℚ) (rd : Nat) : ℚ :=
  low + (high - low) * rd / 100

/-- `wait_random(low, high)` applied to an operation `f`: sleeps for the
sampled duration, then calls `f` unchanged.  The result pairs the slept
duration with `f`'s result. -/
def wait_random_wrap {α β : Type} (low high : ℚ) (f : α → β) (rd : Nat) (a : α) :
    ℚ × β :=
  (wait_random_delay low high rd, f a)

/-- The latency window captured by the four `@wait_random(MIN_WAIT, MAX_WAIT)`
decorators.  The decorator arguments are evaluated when the class body runs
at import time — before any `__init__` can reassign the globals — so the
captured window is the module-default one, for every driver instance. -/
def decorated_wait_window : ℚ × ℚ := (MIN_WAIT_initial, MAX_WAIT_initial)

/-- Sleep duration of one latency-wrapped method call (`get_storage`,
`list_storage_pools`, `_get_volume_range`, `collect_array_metrics`) for the
draw `rd`. -/
def decorated_delay (rd : Nat) : ℚ :=
  wait_random_delay decorated_wait_window.1 decorated_wait_window.2 rd

/-! Pool listing. -/

structure Pool where
  name : String
  storage_id : String
  native_storage_pool_id : String
  description : String
  status : String
  total_capacity : Nat
  used_capacity : Nat
  free_capacity : Nat
deriving Repr, DecidableEq, Inhabited

/-- The pool record built for loop index `idx` in `list_storage_pools`;
`caps idx` supplies the two `randint` draws of its capacity sample. -/
def make_fake_pool (storage_id : String) (caps : Nat → Nat × Nat) (idx : Nat) :
    Pool :=
  let c := get_random_capacity (caps idx).1 (caps idx).2
  { name := "fake_pool_" ++ toString idx,
    storage_id := storage_id,
    native_storage_pool_id := "fake_original_id_" ++ toString idx,
    description := "Fake Pool",
    status := "normal",
    total_capacity := c.1,
    used_capacity := c.2.1,
    free_capacity := c.2.2 }

/-- `list_storage_pools`: `rd_pools_count = randint(MIN_POOL, MAX_POOL)` pools
appended in index order. -/
def list_storage_pools (storage_id : String) (caps : Nat → Nat × Nat)
    (rd_pools_count : Nat) : List Pool :=
  (List.range rd_pools_count).foldl
    (fun pool_list idx => pool_list ++ [make_fake_pool storage_id caps idx]) []

/-! Volume listing. -/

structure Volume where
  name : String
  storage_id : String
  description : String
  status : String
  native_volume_id : String
  wwn : String
  total_capacity : Nat
  used_capacity : Nat
  free_capacity : Nat
deriving Repr, DecidableEq, Inhabited

/-- The volume record built for index `i` in `_get_volume_range`; `caps i`
supplies the two `randint` draws of its capacity sample. -/
def make_fake_volume (storage_id : String) (caps : Nat → Nat × Nat) (i : Nat) :
    Volume :=
  let c := get_random_capacity (caps i).1 (caps i).2
  { name := "fake_vol_" ++ toString i,
    storage_id := storage_id,
    description := "Fake Volume",
    status := "normal",
    native_volume_id := "fake_original_id_" ++ toString i,
    wwn := "fake_wwn_" ++ toString i,
    total_capacity := c.1,
    used_capacity := c.2.1,
    free_capacity := c.2.2 }

/-- `_get_volume_range(start, end)`: one volume per `i in range(start, end)`,
appended in order (`List.range' start (end - start)` enumerates exactly
Python's `range(start, end)` when `end ≥ start`, and is empty otherwise, as in
Python). -/
def get_volume_range (storage_id : String) (caps : Nat → Nat × Nat)
    (start fin : Nat) : List Volume :=
  (List.range' start (fin - start)).foldl
    (fun volume_list i => volume_list ++ [make_fake_volume storage_id caps i]) []

/-- `list_volumes`: the drawn count `n = randint(MIN_VOLUME, MAX_VOLUME)` is
produced in `loops = math.ceil(n / p)` pages of size `p = PAGE_LIMIT`
(`(n + p - 1) / p` is that ceiling in `Nat` arithmetic for `p ≥ 1`); page
`idx` spans `[idx*p, (idx+1)*p)` except that the last page ends at `n`. -/
def list_volumes (storage_id : String) (caps : Nat → Nat × Nat) (n p : Nat) :
    List Volume :=
  let loops := (n + p - 1) / p
  (List.range loops).foldl
    (fun volume_list idx =>
      let start := idx * p
      let fin := if idx = loops - 1 then n else (idx + 1) * p
      volume_list ++ get_volume_range storage_id caps start fin) []

/-- The successive pages of one `list_volumes` call, before concatenation. -/
def volume_pages (storage_id : String) (caps : Nat → Nat × Nat) (n p : Nat) :
    List (List Volume) :=
  let loops := (n + p - 1) / p
  (List.range loops).map fun idx =>
    get_volume_range storage_id caps (idx * p)
      (if idx = loops - 1 then n else (idx + 1) * p)

/-! Performance metrics. -/

/-- Python `dict` assignment `d[k] = v`: overwrite in place when the key is
present, append otherwise. -/
def dictInsert (d : List (Nat × ℚ)) (k : Nat) (v : ℚ) : List (Nat × ℚ) :=
  if d.any (fun kv => kv.1 = k) then
    d.map (fun kv => if kv.1 = k then (k, v) else kv)
  else d ++ [(k, v)]

/-- `get_random_timestamp_value` inside `_get_random_performance`: for each
`i in range(MIN_PERF_VALUES, MAX_PERF_VALUES)` reads the clock (`clock i`, in
milliseconds) and stores a fresh `random.uniform(1, 100)` draw (`draw i`)
under that timestamp; colliding timestamps overwrite. -/
def get_random_timestamp_value (clock : Nat → Nat) (draw : Nat → ℚ) :
    List (Nat × ℚ) :=
  (List.range' MIN_PERF_VALUES (MAX_PERF_VALUES - MIN_PERF_VALUES)).foldl
    (fun rtv i => dictInsert rtv (clock i) (draw i)) []

/-- `_get_random_performance`: one time-series per metric name.  The name list
`DELFIN_ARRAY_METRICS` lives in `delfin/common/constants.py`, outside this
module, so it is a parameter `metrics` here; `clock` and `draw` are the
per-name clock readings and uniform draws. -/
def get_random_performance (metrics : List String)
    (clock : String → Nat → Nat) (draw : String → Nat → ℚ) :
    List (String × List (Nat × ℚ)) :=
  metrics.map fun key => (key, get_random_timestamp_value (clock key) (draw key))

/-- `constants.metric_struct(name=..., labels=..., values=...)`. -/
structure MetricRecord where
  name : String
  labels : List (String × String)
  values : List (Nat × ℚ)
deriving Repr, DecidableEq

/-- `collect_array_metrics(ctx, storage_id, interval, is_history)` with
`rd_array_count = randint(MIN_STORAGE, MAX_STORAGE)`: builds the shared
per-name time-series once, then emits one record per (batch, metric name)
pair.  `fake_metrics[key]` cannot miss since the dict is built over the same
keys, so the lookup's default is never reached. -/
def collect_array_metrics (metrics : List String)
    (clock : String → Nat → Nat) (draw : String → Nat → ℚ)
    (storage_id : String) (interval : Int) (is_history : Bool)
    (rd_array_count : Nat) : List MetricRecord :=
  let labels := [("storage_id", storage_id), ("resource_type", "array")]
  let fake_metrics := get_random_performance metrics clock draw
  (List.range rd_array_count).foldl
    (fun array_metrics _ =>
      array_metrics ++ metrics.map (fun key =>
        { name := key, labels := labels,
          values := (fake_metrics.lookup key).getD [] }))
    []

/-! Helper lemmas. -/

instance {ε α : Type} [DecidableEq ε] [DecidableEq α] : DecidableEq (Except ε α) := fun a b =>
  match a, b with
  | .error e₁, .error e₂ =>
      if h : e₁ = e₂ then .isTrue (h ▸ rfl) else .isFalse (fun hc => h (by injection hc))
  | .ok a₁, .ok a₂ =>
      if h : a₁ = a₂ then .isTrue (h ▸ rfl) else .isFalse (fun hc => h (by injection hc))
  | .error _, .ok _ => .isFalse (fun hc => Except.noConfusion hc)
  | .ok _, .error _ => .isFalse (fun hc => Except.noConfusion hc)

theorem foldl_append_eq_flatten {α β : Type} (g : α → List β) :
    ∀ (l : List α) (init : List β),
      l.foldl (fun acc x => acc ++ g x) init = init ++ (l.map g).flatten
  | [], _ => by simp
  | x :: xs, init => by
      rw [List.foldl_cons, foldl_append_eq_flatten g xs (init ++ g x),
        List.map_cons, List.flatten_cons, List.append_assoc]

theorem foldl_append_singleton {α β : Type} (g : α → β) :
    ∀ (l : List α) (init : List β),
      l.foldl (fun acc x => acc ++ [g x]) init = init ++ l.map g
  | [], _ => by simp
  | x :: xs, init => by
      rw [List.foldl_cons, foldl_append_singleton g xs (init ++ [g x]),
        List.map_cons]
      simp

theorem get_volume_range_eq_map (sid : String) (caps : Nat → Nat × Nat)
    (start fin : Nat) :
    get_volume_range sid caps start fin
      = (List.range' start (fin - start)).map (make_fake_volume sid caps) := by
  unfold get_volume_range
  rw [foldl_append_singleton]
  simp

theorem length_get_volume_range (sid : String) (caps : Nat → Nat × Nat)
    (start fin : Nat) :
    (get_volume_range sid caps start fin).length = fin - start := by
  rw [get_volume_range_eq_map]
  simp

theorem list_storage_pools_eq_map (sid : String) (caps : Nat → Nat × Nat)
    (n : Nat) :
    list_storage_pools sid caps n = (List.range n).map (make_fake_pool sid caps) := by
  unfold list_storage_pools
  rw [foldl_append_singleton]
  simp

theorem list_volumes_eq_flatten (sid : String) (caps : Nat → Nat × Nat)
    (n p : Nat) :
    list_volumes sid caps n p = (volume_pages sid caps n p).flatten := by
  simp only [list_volumes, volume_pages]
  rw [foldl_append_eq_flatten]
  simp

theorem volume_pages_getD (sid : String) (caps : Nat → Nat × Nat) (n p i : Nat)
    (hi : i < (n + p - 1) / p) :
    (volume_pages sid caps n p).getD i []
      = get_volume_range sid caps (i * p)
          (if i = (n + p - 1) / p - 1 then n else (i + 1) * p) := by
  simp only [volume_pages]
  rw [List.getD_eq_getElem?_getD, List.getElem?_map, List.getElem?_range hi]
  rfl

theorem pyFloat_two_parts (s : String) (ip fp : List Char)
    (hs : splitCharAux '.' s.data [] = [ip, fp])
    (h₁ : ip ≠ []) (h₂ : ip.all Char.isDigit = true)
    (h₃ : fp ≠ []) (h₄ : fp.all Char.isDigit = true) :
    pyFloat s
      = some ((digitsToNat ip : ℚ) + (digitsToNat fp : ℚ) / (10 ^ fp.length : ℚ)) := by
  simp only [pyFloat, hs]
  rw [if_pos ⟨h₁, h₂, h₃, h₄⟩]

theorem driver_init_ok (conf : Config) (w : ℚ × ℚ) (p v : Int × Int) (pl : Int)
    (hw : get_range_val pyFloat conf.fake_api_time_range = .ok w)
    (hp : get_range_val pyInt conf.fake_pool_range = .ok p)
    (hv : get_range_val pyInt conf.fake_volume_range = .ok v)
    (hpl : pyInt conf.fake_page_query_limit = some pl) :
    driver_init conf
      = .ok { MIN_WAIT := w.1, MAX_WAIT := w.2, MIN_POOL := p.1, MAX_POOL := p.2,
              MIN_VOLUME := v.1, MAX_VOLUME := v.2, PAGE_LIMIT := pl } := by
  simp only [driver_init, hw, hp, hv, hpl]
  rfl

theorem dictInsert_length_le (d : List (Nat × ℚ)) (k : Nat) (v : ℚ) :
    (dictInsert d k v).length ≤ d.length + 1 := by
  unfold dictInsert
  split
  · simp
  · simp

theorem dictInsert_length_ge (d : List (Nat × ℚ)) (k : Nat) (v : ℚ) :
    d.length ≤ (dictInsert d k v).length := by
  unfold dictInsert
  split
  · simp
  · simp

theorem dictInsert_length_pos (d : List (Nat × ℚ)) (k : Nat) (v : ℚ) :
    1 ≤ (dictInsert d k v).length := by
  unfold dictInsert
  split
  · rename_i h
    rcases d with _ | ⟨kv, d⟩
    · simp at h
    · simp
  · simp

theorem dictInsert_values {P : ℚ → Prop} (d : List (Nat × ℚ)) (k : Nat) (v : ℚ)
    (hd : ∀ kv ∈ d, P kv.2) (hv : P v) :
    ∀ kv ∈ dictInsert d k v, P kv.2 := by
  intro kv hkv
  unfold dictInsert at hkv
  split at hkv
  · rcases List.mem_map.mp hkv with ⟨kv₀, hkv₀, rfl⟩
    by_cases hc : kv₀.1 = k
    · simpa [hc] using hv
    · simpa [hc] using hd kv₀ hkv₀
  · rcases List.mem_append.mp hkv with h | h
    · exact hd kv h
    · rcases List.mem_singleton.mp h with rfl
      exact hv

theorem lookup_map_self {β : Type} (g : String → β) :
    ∀ (l : List String) (k : String), k ∈ l →
      (l.map (fun key => (key, g key))).lookup k = some (g k)
  | [], k, h => absurd h (List.not_mem_nil k)
  | x :: xs, k, h => by
      by_cases hk : k = x
      · subst hk
        simp [List.lookup]
      · have hxs : k ∈ xs := by
          rcases List.mem_cons.mp h with h' | h'
          · exact absurd h' hk
          · exact h'
        have hbeq : (k == x) = false := beq_eq_false_iff_ne.mpr hk
        simp [List.lookup, hbeq, lookup_map_self g xs k hxs]

theorem collect_array_metrics_eq (metrics : List String)
    (clock : String → Nat → Nat) (draw : String → Nat → ℚ)
    (sid : String) (interval : Int) (is_history : Bool) (rd : Nat) :
    collect_array_metrics metrics clock draw sid interval is_history rd
      = (List.replicate rd (metrics.map (fun key =>
          { name := key,
            labels := [("storage_id", sid), ("resource_type", "array")],
            values := ((get_random_performance metrics clock draw).lookup key).getD []
            : MetricRecord }))).flatten := by
  simp only [collect_array_metrics]
  rw [foldl_append_eq_flatten]
  simp [List.map_const]

/-! Claim theorems. -/

/-- C3: for every range string whose two dash-separated halves both parse
under the requested numeric parser, `get_range_val` returns the pair in
textual order; for every string that does not split on the dash into exactly
two parts, or whose either part fails to parse, it raises `InvalidInput`. -/
theorem get_range_val_spec {α : Type} (t : String → Option α) (s : String) :
    (∀ a b x y, splitChar '-' s = [a, b] → t a = some x → t b = some y →
      get_range_val t s = .ok (x, y)) ∧
    ((splitChar '-' s).length ≠ 2 → get_range_val t s = .error .invalidInput) ∧
    (∀ a b, splitChar '-' s = [a, b] → (t a = none ∨ t b = none) →
      get_range_val t s = .error .invalidInput) := by
  refine ⟨?_, ?_, ?_⟩
  · intro a b x y hs ha hb
    simp [get_range_val, hs, ha, hb]
  · intro h
    simp [get_range_val, h]
  · intro a b hs hor
    rcases hor with h | h
    · cases hb : t b <;> simp [get_range_val, hs, h, hb]
    · cases ha : t a <;> simp [get_range_val, hs, h, ha]

/-- Witness for `get_range_val_spec`: the int parser on `"3-7"`. -/
theorem get_range_val_spec_witness :
    get_range_val pyInt "3-7" = .ok (3, 7) :=
  (get_range_val_spec pyInt "3-7").1 "3" "7" 3 7 (by decide) (by decide) (by decide)

/-- C4: every capacity triple built from draws `total ∈ [1000, 2000]` and
`pct ∈ [0, 100]` satisfies `used + free = total`, `used ≤ total`,
`1000 ≤ total ≤ 2000`, with `used` the rounded-down percentage of `total`
and `free` the difference. -/
theorem get_random_capacity_spec (total pct : Nat)
    (h₁ : 1000 ≤ total) (h₂ : total ≤ 2000) (h₃ : pct ≤ 100) :
    (get_random_capacity total pct).2.1 + (get_random_capacity total pct).2.2
        = (get_random_capacity total pct).1 ∧
    (get_random_capacity total pct).2.1 ≤ (get_random_capacity total pct).1 ∧
    1000 ≤ (get_random_capacity total pct).1 ∧
    (get_random_capacity total pct).1 ≤ 2000 ∧
    (get_random_capacity total pct).2.1 = pct * total / 100 ∧
    (get_random_capacity total pct).2.2
        = (get_random_capacity total pct).1 - (get_random_capacity total pct).2.1 := by
  have hu : pct * total / 100 ≤ total := by
    calc pct * total / 100 ≤ 100 * total / 100 :=
          Nat.div_le_div_right (Nat.mul_le_mul_right total h₃)
      _ = total := by omega
  have e₁ : (get_random_capacity total pct).1 = total := rfl
  have e₂ : (get_random_capacity total pct).2.1 = pct * total / 100 := rfl
  have e₃ : (get_random_capacity total pct).2.2 = total - pct * total / 100 := rfl
  rw [e₁, e₂, e₃]
  exact ⟨by omega, hu, h₁, h₂, rfl, rfl⟩

/-- Witness for `get_random_capacity_spec` at draws `total = 1500`,
`pct = 40`. -/
theorem get_random_capacity_spec_witness :
    (get_random_capacity 1500 40).2.1 + (get_random_capacity 1500 40).2.2
        = (get_random_capacity 1500 40).1 ∧
    (get_random_capacity 1500 40).2.1 ≤ (get_random_capacity 1500 40).1 ∧
    1000 ≤ (get_random_capacity 1500 40).1 ∧
    (get_random_capacity 1500 40).1 ≤ 2000 ∧
    (get_random_capacity 1500 40).2.1 = 40 * 1500 / 100 ∧
    (get_random_capacity 1500 40).2.2
        = (get_random_capacity 1500 40).1 - (get_random_capacity 1500 40).2.1 :=
  get_random_capacity_spec 1500 40 (by decide) (by decide) (by decide)

/-- C5: the latency wrapper returns exactly the wrapped operation's result on
the same input — `β` may itself be an `Except`, so error behaviour is covered
alike — and the only thing it adds is the sampled delay. -/
theorem wait_random_wrap_preserves_result {α β : Type} (low high : ℚ)
    (rd : Nat) (f : α → β) (a : α) :
    (wait_random_wrap low high f rd a).2 = f a ∧
    (wait_random_wrap low high f rd a).1 = wait_random_delay low high rd :=
  ⟨rfl, rfl⟩

/-- C9: `collect_array_metrics` ignores `interval` and `is_history`: starting
from the same random draws, clock and storage id, any two values of those two
parameters produce identical records. -/
theorem collect_array_metrics_ignores_interval_history
    (metrics : List String) (clock : String → Nat → Nat)
    (draw : String → Nat → ℚ) (sid : String) (i₁ i₂ : Int)
    (h₁ h₂ : Bool) (rd : Nat) :
    collect_array_metrics metrics clock draw sid i₁ h₁ rd
      = collect_array_metrics metrics clock draw sid i₂ h₂ rd := rfl

/-- C10: `get_range_val` performs no ordering validation: any two-part string
whose halves parse succeeds in textual order even when the first part exceeds
the second — `"9-2"` yields `(9, 2)` — and a driver can be constructed with
an inverted pool range without any parse-time error. -/
theorem get_range_val_no_order_check :
    (∀ (s a b : String) (x y : Int), splitChar '-' s = [a, b] →
      pyInt a = some x → pyInt b = some y → y < x →
      get_range_val pyInt s = .ok (x, y)) ∧
    get_range_val pyInt "9-2" = .ok (9, 2) ∧
    (∃ g : Globals,
      driver_init { fake_pool_range := "9-2", fake_volume_range := "1-2000",
                    fake_api_time_range := "0.1-0.5",
                    fake_page_query_limit := "500" } = .ok g ∧
      g.MIN_POOL = 9 ∧ g.MAX_POOL = 2 ∧ g.MAX_POOL < g.MIN_POOL) := by
  refine ⟨?_, by decide, ?_⟩
  · intro s a b x y hs ha hb _
    simp [get_range_val, hs, ha, hb]
  · have h₁ : pyFloat "0.1" = some (1/10) := by
      rw [pyFloat_two_parts "0.1" ['0'] ['1'] (by decide) (by decide) (by decide)
        (by decide) (by decide)]
      norm_num [show digitsToNat ['0'] = 0 from by decide,
        show digitsToNat ['1'] = 1 from by decide]
    have h₂ : pyFloat "0.5" = some (1/2) := by
      rw [pyFloat_two_parts "0.5" ['0'] ['5'] (by decide) (by decide) (by decide)
        (by decide) (by decide)]
      norm_num [show digitsToNat ['0'] = 0 from by decide,
        show digitsToNat ['5'] = 5 from by decide]
    have hw : get_range_val pyFloat "0.1-0.5" = .ok (1/10, 1/2) := by
      have hs : splitChar '-' "0.1-0.5" = ["0.1", "0.5"] := by decide
      simp [get_range_val, hs, h₁, h₂]
    refine ⟨⟨1/10, 1/2, 9, 2, 1, 2000, 500⟩, ?_, rfl, rfl, by decide⟩
    exact driver_init_ok _ (1/10, 1/2) (9, 2) (1, 2000) 500 hw
      (by decide) (by decide) (by decide)

/-- Witness for `get_range_val_no_order_check`: its universally quantified
part applied at the inverted range `"9-2"`. -/
theorem get_range_val_no_order_check_witness :
    get_range_val pyInt "9-2" = .ok (9, 2) :=
  get_range_val_no_order_check.1 "9-2" "9" "2" 9 2 (by decide) (by decide)
    (by decide) (by decide)

/-- C7: every time-series the sampler produces has between `MIN_PERF_VALUES`
(1) and `MAX_PERF_VALUES` (4) points — colliding timestamps overwrite, so the
count can drop below the three insertions but never below one — and every
stored value is one of the `uniform(1, 100)` draws, hence lies in
`[1, 100]`. -/
theorem get_random_timestamp_value_spec (clock : Nat → Nat) (draw : Nat → ℚ)
    (hdraw : ∀ i, 1 ≤ draw i ∧ draw i ≤ 100) :
    MIN_PERF_VALUES ≤ (get_random_timestamp_value clock draw).length ∧
    (get_random_timestamp_value clock draw).length ≤ MAX_PERF_VALUES ∧
    ∀ kv ∈ get_random_timestamp_value clock draw, 1 ≤ kv.2 ∧ kv.2 ≤ 100 := by
  have hrange : List.range' MIN_PERF_VALUES (MAX_PERF_VALUES - MIN_PERF_VALUES)
      = [1, 2, 3] := rfl
  have hval : get_random_timestamp_value clock draw
      = dictInsert (dictInsert (dictInsert [] (clock 1) (draw 1)) (clock 2) (draw 2))
          (clock 3) (draw 3) := by
    simp only [get_random_timestamp_value, hrange, List.foldl_cons, List.foldl_nil]
  have l₁ : (dictInsert ([] : List (Nat × ℚ)) (clock 1) (draw 1)).length = 1 := rfl
  have ge₂ := dictInsert_length_ge (dictInsert [] (clock 1) (draw 1)) (clock 2) (draw 2)
  have ge₃ := dictInsert_length_ge
    (dictInsert (dictInsert [] (clock 1) (draw 1)) (clock 2) (draw 2)) (clock 3) (draw 3)
  have le₂ := dictInsert_length_le (dictInsert [] (clock 1) (draw 1)) (clock 2) (draw 2)
  have le₃ := dictInsert_length_le
    (dictInsert (dictInsert [] (clock 1) (draw 1)) (clock 2) (draw 2)) (clock 3) (draw 3)
  refine ⟨?_, ?_, ?_⟩
  · rw [hval]
    simp only [MIN_PERF_VALUES]
    omega
  · rw [hval]
    simp only [MAX_PERF_VALUES]
    omega
  · rw [hval]
    exact @dictInsert_values (fun v => 1 ≤ v ∧ v ≤ 100)
      (dictInsert (dictInsert [] (clock 1) (draw 1)) (clock 2) (draw 2))
      (clock 3) (draw 3)
      (@dictInsert_values (fun v => 1 ≤ v ∧ v ≤ 100)
        (dictInsert [] (clock 1) (draw 1)) (clock 2) (draw 2)
        (@dictInsert_values (fun v => 1 ≤ v ∧ v ≤ 100) [] (clock 1) (draw 1)
          (fun kv hkv => absurd hkv (List.not_mem_nil kv)) (hdraw 1))
        (hdraw 2))
      (hdraw 3)

/-- Witness for `get_random_timestamp_value_spec`: distinct clock readings and
the constant draw 3. -/
theorem get_random_timestamp_value_spec_witness :
    MIN_PERF_VALUES ≤ (get_random_timestamp_value (fun i => i) (fun _ => 3)).length ∧
    (get_random_timestamp_value (fun i => i) (fun _ => 3)).length ≤ MAX_PERF_VALUES ∧
    ∀ kv ∈ get_random_timestamp_value (fun i => i) (fun _ => 3),
      1 ≤ kv.2 ∧ kv.2 ≤ 100 :=
  get_random_timestamp_value_spec (fun i => i) (fun _ => 3)
    (fun _ => by norm_num)

/-- C6: with a drawn batch count `rd ∈ [1, 10]`, the collected metrics hold
exactly one record per (batch, metric-name) pair — `rd * |metrics|` records —
every record's name belongs to the metric-name list, every record carries the
labels `storage_id` and `resource_type = "array"`, and records with the same
name share the single time-series built for that name, across all batches. -/
theorem collect_array_metrics_spec (metrics : List String)
    (clock : String → Nat → Nat) (draw : String → Nat → ℚ) (sid : String)
    (interval : Int) (is_history : Bool) (rd : Nat)
    (h₁ : MIN_STORAGE ≤ rd) (h₂ : rd ≤ MAX_STORAGE) :
    (collect_array_metrics metrics clock draw sid interval is_history rd).length
        = rd * metrics.length ∧
    (∀ m ∈ collect_array_metrics metrics clock draw sid interval is_history rd,
      m.name ∈ metrics ∧
      m.labels = [("storage_id", sid), ("resource_type", "array")] ∧
      m.values = get_random_timestamp_value (clock m.name) (draw m.name)) ∧
    (∀ m₁ ∈ collect_array_metrics metrics clock draw sid interval is_history rd,
      ∀ m₂ ∈ collect_array_metrics metrics clock draw sid interval is_history rd,
        m₁.name = m₂.name → m₁.values = m₂.values) := by
  have hmem : ∀ m ∈ collect_array_metrics metrics clock draw sid interval is_history rd,
      m.name ∈ metrics ∧
      m.labels = [("storage_id", sid), ("resource_type", "array")] ∧
      m.values = get_random_timestamp_value (clock m.name) (draw m.name) := by
    intro m hm
    rw [collect_array_metrics_eq] at hm
    rcases List.mem_flatten.mp hm with ⟨batch, hbatch, hmb⟩
    have hbe := List.eq_of_mem_replicate hbatch
    subst hbe
    rcases List.mem_map.mp hmb with ⟨key, hkey, rfl⟩
    refine ⟨hkey, rfl, ?_⟩
    show ((get_random_performance metrics clock draw).lookup key).getD [] = _
    rw [get_random_performance, lookup_map_self _ metrics key hkey]
    rfl
  refine ⟨?_, hmem, ?_⟩
  · rw [collect_array_metrics_eq, List.length_flatten, List.map_replicate,
      List.sum_replicate, smul_eq_mul, List.length_map]
  · intro m₁ hm₁ m₂ hm₂ hname
    rw [(hmem m₁ hm₁).2.2, (hmem m₂ hm₂).2.2, hname]

/-- Witness for `collect_array_metrics_spec`: three metric names, two
batches. -/
theorem collect_array_metrics_spec_witness :
    (collect_array_metrics ["iops", "throughput", "responseTime"]
        (fun _ i => i) (fun _ _ => 3) "sid0" 900 false 2).length
        = 2 * (["iops", "throughput", "responseTime"] : List String).length ∧
    (∀ m ∈ collect_array_metrics ["iops", "throughput", "responseTime"]
        (fun _ i => i) (fun _ _ => 3) "sid0" 900 false 2,
      m.name ∈ (["iops", "throughput", "responseTime"] : List String) ∧
      m.labels = [("storage_id", "sid0"), ("resource_type", "array")] ∧
      m.values = get_random_timestamp_value (fun i => i) (fun _ => 3)) ∧
    (∀ m₁ ∈ collect_array_metrics ["iops", "throughput", "responseTime"]
        (fun _ i => i) (fun _ _ => 3) "sid0" 900 false 2,
      ∀ m₂ ∈ collect_array_metrics ["iops", "throughput", "responseTime"]
          (fun _ i => i) (fun _ _ => 3) "sid0" 900 false 2,
        m₁.name = m₂.name → m₁.values = m₂.values) :=
  collect_array_metrics_spec ["iops", "throughput", "responseTime"]
    (fun _ i => i) (fun _ _ => 3) "sid0" 900 false 2 (by decide) (by decide)

/-- C8: with configured pool-count bounds `[lo, hi]` and a count draw
`rd ∈ [lo, hi]`, `list_storage_pools` returns exactly `rd` pools — so the
length lies in `[lo, hi]` — pool `i` carries the sequential synthetic name
and native id and its own capacity sample built from draw `caps i`; the call
always produces a list, and an empty result forces `lo = 0`. -/
theorem list_storage_pools_spec (sid : String) (caps : Nat → Nat × Nat)
    (lo hi rd : Nat) (h₁ : lo ≤ rd) (h₂ : rd ≤ hi) :
    (list_storage_pools sid caps rd).length = rd ∧
    lo ≤ (list_storage_pools sid caps rd).length ∧
    (list_storage_pools sid caps rd).length ≤ hi ∧
    (∀ i, i < rd →
      ((list_storage_pools sid caps rd).getD i default).name
          = "fake_pool_" ++ toString i ∧
      ((list_storage_pools sid caps rd).getD i default).native_storage_pool_id
          = "fake_original_id_" ++ toString i ∧
      ((list_storage_pools sid caps rd).getD i default).total_capacity
          = (get_random_capacity (caps i).1 (caps i).2).1 ∧
      ((list_storage_pools sid caps rd).getD i default).used_capacity
          = (get_random_capacity (caps i).1 (caps i).2).2.1 ∧
      ((list_storage_pools sid caps rd).getD i default).free_capacity
          = (get_random_capacity (caps i).1 (caps i).2).2.2) ∧
    (list_storage_pools sid caps rd = [] → lo = 0) := by
  have hlen : (list_storage_pools sid caps rd).length = rd := by
    rw [list_storage_pools_eq_map]
    simp
  have hgetD : ∀ i, i < rd →
      (list_storage_pools sid caps rd).getD i default = make_fake_pool sid caps i := by
    intro i hi
    rw [list_storage_pools_eq_map, List.getD_eq_getElem?_getD, List.getElem?_map,
      List.getElem?_range hi]
    rfl
  refine ⟨hlen, by omega, by omega, ?_, ?_⟩
  · intro i hi
    rw [hgetD i hi]
    exact ⟨rfl, rfl, rfl, rfl, rfl⟩
  · intro hempty
    have h0 : rd = 0 := by
      rw [← hlen, hempty]
      rfl
    omega

/-- Witness for `list_storage_pools_spec`: bounds `[2, 3]`, draw 2. -/
theorem list_storage_pools_spec_witness :
    (list_storage_pools "s" (fun _ => (1000, 50)) 2).length = 2 ∧
    2 ≤ (list_storage_pools "s" (fun _ => (1000, 50)) 2).length ∧
    (list_storage_pools "s" (fun _ => (1000, 50)) 2).length ≤ 3 ∧
    (∀ i, i < 2 →
      ((list_storage_pools "s" (fun _ => (1000, 50)) 2).getD i default).name
          = "fake_pool_" ++ toString i ∧
      ((list_storage_pools "s" (fun _ => (1000, 50)) 2).getD i
          default).native_storage_pool_id = "fake_original_id_" ++ toString i ∧
      ((list_storage_pools "s" (fun _ => (1000, 50)) 2).getD i
          default).total_capacity = (get_random_capacity 1000 50).1 ∧
      ((list_storage_pools "s" (fun _ => (1000, 50)) 2).getD i
          default).used_capacity = (get_random_capacity 1000 50).2.1 ∧
      ((list_storage_pools "s" (fun _ => (1000, 50)) 2).getD i
          default).free_capacity = (get_random_capacity 1000 50).2.2) ∧
    (list_storage_pools "s" (fun _ => (1000, 50)) 2 = [] → 2 = 0) :=
  list_storage_pools_spec "s" (fun _ => (1000, 50)) 2 3 2 (by decide) (by decide)

theorem sum_pages (m n p : Nat) (hmn : m * p ≤ n) :
    ((List.range (m + 1)).map
        (fun idx => (if idx = m then n else (idx + 1) * p) - idx * p)).sum = n := by
  rw [List.range_succ, List.map_append, List.sum_append]
  have hcongr : (List.range m).map
        (fun idx => (if idx = m then n else (idx + 1) * p) - idx * p)
      = (List.range m).map (fun _ => p) := by
    refine List.map_congr_left ?_
    intro a ha
    rw [List.mem_range] at ha
    rw [if_neg (by omega)]
    have hmul : (a + 1) * p = a * p + p := by ring
    rw [hmul]
    exact Nat.add_sub_cancel_left (a * p) p
  have hconst : ((List.range m).map (fun _ => p)).sum = m * p := by
    simp [List.map_const]
  have hlast : (([m] : List Nat).map
        (fun idx => (if idx = m then n else (idx + 1) * p) - idx * p)).sum
      = n - m * p := by
    simp
  rw [hcongr, hconst, hlast]
  generalize m * p = q at hmn ⊢
  omega

theorem volume_pages_lengths (sid : String) (caps : Nat → Nat × Nat) (n p : Nat) :
    (volume_pages sid caps n p).map List.length
      = (List.range ((n + p - 1) / p)).map
          (fun idx =>
            (if idx = (n + p - 1) / p - 1 then n else (idx + 1) * p) - idx * p) := by
  simp only [volume_pages, List.map_map]
  refine List.map_congr_left ?_
  intro a _
  simp only [Function.comp_apply]
  rw [length_get_volume_range]

/-- C1: for every drawn count `n ≥ 0` and page limit `p ≥ 1`, `list_volumes`
returns exactly `n` records, as the concatenation in page order of
`⌈n/p⌉ = (n + p - 1) / p` pages, each page except the last spanning exactly
`p` indices and the last spanning the remainder; for `n = 0` no page is
generated and the result is empty. -/
theorem list_volumes_pagination (sid : String) (caps : Nat → Nat × Nat)
    (n p : Nat) (hp : 1 ≤ p) :
    (list_volumes sid caps n p).length = n ∧
    list_volumes sid caps n p = (volume_pages sid caps n p).flatten ∧
    (volume_pages sid caps n p).length = (n + p - 1) / p ∧
    (∀ i, i + 1 < (n + p - 1) / p →
      ((volume_pages sid caps n p).getD i []).length = p) ∧
    (0 < n →
      ((volume_pages sid caps n p).getD ((n + p - 1) / p - 1) []).length
        = n - ((n + p - 1) / p - 1) * p) ∧
    (n = 0 → volume_pages sid caps n p = [] ∧ list_volumes sid caps n p = []) := by
  have hzero : n = 0 → volume_pages sid caps n p = [] ∧ list_volumes sid caps n p = [] := by
    intro hn
    subst hn
    have h0 : (p - 1) / p = 0 := Nat.div_eq_of_lt (by omega)
    exact ⟨by simp [volume_pages, h0], by simp [list_volumes, h0]⟩
  have hlen : (list_volumes sid caps n p).length = n := by
    rcases Nat.eq_zero_or_pos n with hn | hn
    · rw [(hzero hn).2, hn]
      rfl
    · have hloops : (n + p - 1) / p = (n - 1) / p + 1 := by
        have he : n + p - 1 = (n - 1) + p := by omega
        rw [he, Nat.add_div_right _ hp]
      have hmn : (n - 1) / p * p ≤ n :=
        Nat.le_trans (Nat.div_mul_le_self _ _) (by omega)
      rw [list_volumes_eq_flatten, List.length_flatten, volume_pages_lengths]
      simp only [hloops, Nat.add_sub_cancel]
      exact sum_pages _ _ _ hmn
  refine ⟨hlen, list_volumes_eq_flatten sid caps n p, by simp [volume_pages], ?_, ?_, hzero⟩
  · intro i hi
    rw [volume_pages_getD sid caps n p i (by omega), length_get_volume_range,
      if_neg (by omega)]
    have hmul : (i + 1) * p = i * p + p := by ring
    rw [hmul]
    exact Nat.add_sub_cancel_left (i * p) p
  · intro hn
    have hloops : (n + p - 1) / p = (n - 1) / p + 1 := by
      have he : n + p - 1 = (n - 1) + p := by omega
      rw [he, Nat.add_div_right _ hp]
    rw [hloops]
    simp only [Nat.add_sub_cancel]
    rw [volume_pages_getD sid caps n p ((n - 1) / p)
      (by rw [hloops]; exact Nat.lt_succ_self _)]
    rw [if_pos (by rw [hloops]; exact (Nat.add_sub_cancel _ _).symm)]
    rw [length_get_volume_range]

/-- Witness for `list_volumes_pagination`: count 5, page limit 2 (three
pages of sizes 2, 2, 1). -/
theorem list_volumes_pagination_witness :
    (list_volumes "s" (fun _ => (1000, 50)) 5 2).length = 5 ∧
    list_volumes "s" (fun _ => (1000, 50)) 5 2
      = (volume_pages "s" (fun _ => (1000, 50)) 5 2).flatten ∧
    (volume_pages "s" (fun _ => (1000, 50)) 5 2).length = (5 + 2 - 1) / 2 ∧
    (∀ i, i + 1 < (5 + 2 - 1) / 2 →
      ((volume_pages "s" (fun _ => (1000, 50)) 5 2).getD i []).length = 2) ∧
    (0 < 5 →
      ((volume_pages "s" (fun _ => (1000, 50)) 5 2).getD ((5 + 2 - 1) / 2 - 1) []).length
        = 5 - ((5 + 2 - 1) / 2 - 1) * 2) ∧
    (5 = 0 → volume_pages "s" (fun _ => (1000, 50)) 5 2 = [] ∧
      list_volumes "s" (fun _ => (1000, 50)) 5 2 = []) :=
  list_volumes_pagination "s" (fun _ => (1000, 50)) 5 2 (by decide)

/-- C2 (refuting evidence): configuring `fake_api_time_range = "1.0-2.0"`
parses the window `[1, 2]` into the globals at driver construction, yet every
latency-wrapped call still sleeps inside the default window the
`@wait_random(MIN_WAIT, MAX_WAIT)` decorators captured at class-definition
time: the delay is `0.1` at draw 0 and `0.5` at draw 100 — the extreme draws —
both strictly below the configured lower bound, so the delay does not lie in
the configured window. -/
theorem decorated_delay_ignores_configured_window :
    ∃ g : Globals,
      driver_init { fake_pool_range := "1-100", fake_volume_range := "1-2000",
                    fake_api_time_range := "1.0-2.0",
                    fake_page_query_limit := "500" } = .ok g ∧
      g.MIN_WAIT = 1 ∧ g.MAX_WAIT = 2 ∧
      decorated_delay 0 = 1/10 ∧ decorated_delay 100 = 1/2 ∧
      decorated_delay 0 < g.MIN_WAIT ∧ decorated_delay 100 < g.MIN_WAIT := by
  have h₁ : pyFloat "1.0" = some 1 := by
    rw [pyFloat_two_parts "1.0" ['1'] ['0'] (by decide) (by decide) (by decide)
      (by decide) (by decide)]
    norm_num [show digitsToNat ['1'] = 1 from by decide,
      show digitsToNat ['0'] = 0 from by decide]
  have h₂ : pyFloat "2.0" = some 2 := by
    rw [pyFloat_two_parts "2.0" ['2'] ['0'] (by decide) (by decide) (by decide)
      (by decide) (by decide)]
    norm_num [show digitsToNat ['2'] = 2 from by decide,
      show digitsToNat ['0'] = 0 from by decide]
  have hw : get_range_val pyFloat "1.0-2.0" = .ok (1, 2) := by
    have hs : splitChar '-' "1.0-2.0" = ["1.0", "2.0"] := by decide
    simp [get_range_val, hs, h₁, h₂]
  have hd0 : decorated_delay 0 = 1/10 := by
    simp only [decorated_delay, decorated_wait_window, wait_random_delay,
      MIN_WAIT_initial, MAX_WAIT_initial]
    norm_num
  have hd100 : decorated_delay 100 = 1/2 := by
    simp only [decorated_delay, decorated_wait_window, wait_random_delay,
      MIN_WAIT_initial, MAX_WAIT_initial]
    norm_num
  refine ⟨⟨1, 2, 1, 100, 1, 2000, 500⟩, ?_, rfl, rfl, hd0, hd100, ?_, ?_⟩
  · exact driver_init_ok _ (1, 2) (1, 100) (1, 2000) 500 hw
      (by decide) (by decide) (by decide)
  · rw [hd0]
    norm_num
  · rw [hd100]
    norm_num

end FakeStorage
